import Mathlib

/-!
# Verification of the validated value-object construction protocol

Shallow embedding of the Email value object (`src/domain/value-objects/email.ts`)
and the User entity (`src/domain/entities/user.ts`).

Modelling conventions:
* JS strings are Lean `String`s; character-level operations work on `String.data`.
* A thrown JS `Error` is modelled as the `.error` case of `Except`: every fallible
  construction path is a total Lean function into `Except JsError _`, so "the caller
  always receives a result value" is expressed by the return type itself.
* A `Promise` that may reject is likewise an `Except` value; the injected anti-spam
  port (`AntiSpamPort.isBlocked`) is a function `String → Except String Bool` where
  `.error msg` models a rejected promise.
* `new Date()` / `UserId.generate()` are nondeterministic inputs of the JS runtime;
  they become explicit parameters (`now : Nat`, `generatedId : UserId`).
* JS `String.prototype.toLowerCase` is modelled on the ASCII range (the only range
  the repository's validation rules can distinguish).
-/

/-- JS regex `\s` / `String.prototype.trim` whitespace: WhiteSpace ∪ LineTerminator
code points (ECMA-262). -/
def isJsWhitespace (c : Char) : Bool :=
  let n := c.toNat
  n == 9 || n == 10 || n == 11 || n == 12 || n == 13 || n == 32 ||
  n == 160 || n == 0x1680 || (0x2000 ≤ n && n ≤ 0x200a) ||
  n == 0x2028 || n == 0x2029 || n == 0x202f || n == 0x205f ||
  n == 0x3000 || n == 0xfeff

/-- One character of the regex class `[^\s@]`. -/
def isEmailChar (c : Char) : Bool :=
  !(isJsWhitespace c) && c != '@'

/-- ASCII lower-casing of a single character, as JS `toLowerCase` acts on
the code points relevant here. -/
def lowerChar (c : Char) : Char :=
  if 65 ≤ c.toNat ∧ c.toNat ≤ 90 then Char.ofNat (c.toNat + 32) else c

/-- `email.includes('..')` on the character list. -/
def hasConsecutiveDotsL : List Char → Bool
  | a :: b :: rest => (a == '.' && b == '.') || hasConsecutiveDotsL (b :: rest)
  | _ => false

/-- Matcher for `EMAIL_REGEX = /^[^\s@]+@[^\s@]+\.[^\s@]+$/`.
The pattern matches `l` iff `l = L ++ '@' :: M ++ '.' :: R` with `L`, `M`, `R`
nonempty lists of `[^\s@]` characters.  Since `[^\s@]` excludes `'@'`, `L` is
exactly the longest `'@'`-free prefix, and since `'.'` lies in `[^\s@]`, the
`M`/`R` split exists iff the part after the `'@'` consists of `[^\s@]`
characters and has a `'.'` that is neither its first nor its last character. -/
def regexTest (l : List Char) : Bool :=
  match l.dropWhile (fun c => c != '@') with
  | '@' :: dom =>
      let lp := l.takeWhile (fun c => c != '@')
      !lp.isEmpty && lp.all isEmailChar &&
      !dom.isEmpty && dom.all isEmailChar &&
      ((dom.drop 1).dropLast.contains '.')
  | _ => false

/-- `value.split(sep)` on character lists (JS `String.prototype.split` with a
single-character separator). -/
def splitOnChar (sep : Char) : List Char → List (List Char)
  | [] => [[]]
  | c :: rest =>
    if c = sep then [] :: splitOnChar sep rest
    else
      match splitOnChar sep rest with
      | p :: ps => (c :: p) :: ps
      | [] => [[c]]

/-- `String.prototype.trim` on character lists. -/
def jsTrimL (l : List Char) : List Char :=
  ((l.dropWhile isJsWhitespace).reverse.dropWhile isJsWhitespace).reverse

/-- `String.prototype.trim`. -/
def jsTrim (s : String) : String := ⟨jsTrimL s.data⟩

/-- `String.prototype.toLowerCase` (ASCII model, see header). -/
def jsToLower (s : String) : String := ⟨s.data.map lowerChar⟩

deriving instance DecidableEq for Except

/-- The JS `Error` values the embedded construction paths can produce or let
through.  `invalidFormat raw` is `Error("Invalid email format: " + raw)`;
`blocked raw` is `Error("Email is blocked or blacklisted: " + raw)`;
`gateError msg` is a rejection of the injected anti-spam promise propagating
uncaught through `createWithAntiSpamCheck`; `invalidName msg` is an error
thrown by the (externally supplied) `UserName.create`. -/
inductive JsError where
  | invalidFormat (raw : String)
  | blocked (raw : String)
  | gateError (msg : String)
  | invalidName (msg : String)
deriving DecidableEq, Repr

/-- The Email value object: `class Email extends ValueObject<string>`; the one
field is the stored `value`. -/
structure Email where
  value : String
deriving DecidableEq, Repr

namespace Email

/-- `Email.isValid`: `email.length > 0 && email.length <= 254 &&
!Email.hasConsecutiveDots(email) && Email.EMAIL_REGEX.test(email)`. -/
def isValid (email : String) : Bool :=
  decide (0 < email.data.length) && decide (email.data.length ≤ 254) &&
  !hasConsecutiveDotsL email.data && regexTest email.data

/-- The `Email` constructor: throws (`.error`) when `isValid(email.trim())`
fails, otherwise stores `email.trim().toLowerCase()`. -/
def create (email : String) : Except JsError Email :=
  if !(isValid (jsTrim email)) then .error (.invalidFormat email)
  else .ok ⟨jsToLower (jsTrim email)⟩

/-- `Email.createWithAntiSpamCheck`, instrumented: the second component records
the arguments of every `antiSpamService.isBlocked` call the run performs.
Mirrors the source exactly: validates the *raw* argument with `isValid`, then
awaits `isBlocked(email)` on the raw argument; a resolved `true` throws
`blocked`, a rejected promise propagates (`gateError`), and on `false` the
result is `new Email(email)`, i.e. `create email`. -/
def createWithAntiSpamCheckRun (antiSpamService : String → Except String Bool)
    (email : String) : Except JsError Email × List String :=
  if !(isValid email) then (.error (.invalidFormat email), [])
  else
    match antiSpamService email with
    | .error msg => (.error (.gateError msg), [email])
    | .ok true => (.error (.blocked email), [email])
    | .ok false => (create email, [email])

/-- `Email.createWithAntiSpamCheck(email, antiSpamService)`: the value the
caller's `await` observes. -/
def createWithAntiSpamCheck (antiSpamService : String → Except String Bool)
    (email : String) : Except JsError Email :=
  (createWithAntiSpamCheckRun antiSpamService email).1

/-- `getValue()` from `ValueObject`. -/
def getValue (e : Email) : String := e.value

/-- `getLocalPart()`: `this.value.split('@')[0]`. -/
def getLocalPart (e : Email) : String :=
  ⟨(splitOnChar '@' e.value.data).getD 0 []⟩

/-- `getDomain()`: `this.value.split('@')[1]`; the `getD` default `[]` stands
for the JS `undefined` branch, proved unreachable below. -/
def getDomain (e : Email) : String :=
  ⟨(splitOnChar '@' e.value.data).getD 1 []⟩

end Email

/-- Opaque identity value object (`user-id.ts` is outside the embedded core;
only its identity role matters here). -/
structure UserId where
  value : String
deriving DecidableEq, Repr

/-- Opaque display-name value object (`user-name.ts` is not among the provided
sources; `UserName.create` is therefore passed as an explicit function
parameter wherever the entity calls it). -/
structure UserName where
  value : String
deriving DecidableEq, Repr

/-- The User entity's props (`UserProps`): timestamps are instants (`Nat`). -/
structure User where
  id : UserId
  email : Email
  name : UserName
  createdAt : Nat
  updatedAt : Nat
deriving DecidableEq, Repr

namespace User

/-- `User.create(email, name, id?)`: `id || UserId.generate()` becomes
`(id?).getD generatedId`; `new Date()` becomes the explicit instant `now`,
used for both timestamps. -/
def create (email : Email) (name : UserName) (idOpt : Option UserId)
    (generatedId : UserId) (now : Nat) : User :=
  { id := idOpt.getD generatedId, email := email, name := name,
    createdAt := now, updatedAt := now }

/-- `User.createWithValidation(emailString, nameString, antiSpamService, id?)`,
instrumented: the second component is the list of anti-spam gate calls, the
third records whether `UserName.create` (the parameter `nameCreate`) was
invoked.  Faithful to the source: awaits `Email.createWithAntiSpamCheck`
first; only if it succeeds runs `UserName.create(nameString)`; then
`User.create`. -/
def createWithValidationRun (antiSpamService : String → Except String Bool)
    (nameCreate : String → Except JsError UserName)
    (emailString nameString : String) (idOpt : Option UserId)
    (generatedId : UserId) (now : Nat) :
    Except JsError User × List String × Bool :=
  match Email.createWithAntiSpamCheckRun antiSpamService emailString with
  | (.error e, trace) => (.error e, trace, false)
  | (.ok email, trace) =>
      match nameCreate nameString with
      | .error e => (.error e, trace, true)
      | .ok name => (.ok (create email name idOpt generatedId now), trace, true)

/-- The value the caller of `User.createWithValidation` awaits. -/
def createWithValidation (antiSpamService : String → Except String Bool)
    (nameCreate : String → Except JsError UserName)
    (emailString nameString : String) (idOpt : Option UserId)
    (generatedId : UserId) (now : Nat) : Except JsError User :=
  (createWithValidationRun antiSpamService nameCreate emailString nameString
    idOpt generatedId now).1

/-- `updateEmail(newEmail)`: `new User({...this.props, email: newEmail,
updatedAt: new Date()})`; `new Date()` is the explicit instant `now`. -/
def updateEmail (u : User) (newEmail : Email) (now : Nat) : User :=
  { u with email := newEmail, updatedAt := now }

/-- `updateName(newName)`. -/
def updateName (u : User) (newName : UserName) (now : Nat) : User :=
  { u with name := newName, updatedAt := now }

end User

section CharLemmas

theorem charToNat_ofNat {n : Nat} (h : n.isValidChar) : (Char.ofNat n).toNat = n := by
  rw [Char.ofNat, dif_pos h]
  rfl

theorem char_toNat_inj {c d : Char} (h : c.toNat = d.toNat) : c = d := by
  have h2 := congrArg Char.ofNat h
  rwa [Char.ofNat_toNat, Char.ofNat_toNat] at h2

theorem lowerChar_toNat (c : Char) :
    (lowerChar c).toNat =
      if 65 ≤ c.toNat ∧ c.toNat ≤ 90 then c.toNat + 32 else c.toNat := by
  unfold lowerChar
  split
  · rename_i h
    exact charToNat_ofNat (Or.inl (by omega))
  · rfl

theorem lowerChar_eq_self {c : Char} (h : ¬(65 ≤ c.toNat ∧ c.toNat ≤ 90)) :
    lowerChar c = c := by
  unfold lowerChar
  rw [if_neg h]

theorem lowerChar_idem (c : Char) : lowerChar (lowerChar c) = lowerChar c := by
  by_cases h : 65 ≤ c.toNat ∧ c.toNat ≤ 90
  · apply lowerChar_eq_self
    rw [lowerChar_toNat, if_pos h]
    omega
  · rw [lowerChar_eq_self h, lowerChar_eq_self h]

theorem isJsWhitespace_of_range {c : Char} (h1 : 33 ≤ c.toNat) (h2 : c.toNat ≤ 122) :
    isJsWhitespace c = false := by
  unfold isJsWhitespace
  simp only [Bool.or_eq_false_iff, Bool.and_eq_false_iff, beq_eq_false_iff_ne, ne_eq,
    decide_eq_false_iff_not, not_le]
  omega

theorem isJsWhitespace_lowerChar (c : Char) :
    isJsWhitespace (lowerChar c) = isJsWhitespace c := by
  by_cases h : 65 ≤ c.toNat ∧ c.toNat ≤ 90
  · have hl : (lowerChar c).toNat = c.toNat + 32 := by
      rw [lowerChar_toNat, if_pos h]
    rw [isJsWhitespace_of_range (c := lowerChar c) (by rw [hl]; omega) (by rw [hl]; omega),
      isJsWhitespace_of_range (by omega) (by omega)]
  · rw [lowerChar_eq_self h]

theorem lowerChar_beq {c d : Char} (hd1 : ¬(65 ≤ d.toNat ∧ d.toNat ≤ 90))
    (hd2 : ¬(97 ≤ d.toNat ∧ d.toNat ≤ 122)) :
    (lowerChar c == d) = (c == d) := by
  by_cases hc : 65 ≤ c.toNat ∧ c.toNat ≤ 90
  · have h1 : (lowerChar c == d) = false := by
      rw [beq_eq_false_iff_ne]
      intro he
      have h3 := congrArg Char.toNat he
      rw [lowerChar_toNat, if_pos hc] at h3
      exact hd2 (by omega)
    have h2 : (c == d) = false := by
      rw [beq_eq_false_iff_ne]
      intro he
      exact hd1 (he ▸ hc)
    rw [h1, h2]
  · rw [lowerChar_eq_self hc]

theorem lowerChar_bne_at (c : Char) : (lowerChar c != '@') = (c != '@') := by
  have h : (lowerChar c == '@') = (c == '@') :=
    lowerChar_beq (by decide) (by decide)
  simp only [bne, h]

theorem isEmailChar_lowerChar (c : Char) :
    isEmailChar (lowerChar c) = isEmailChar c := by
  unfold isEmailChar
  rw [isJsWhitespace_lowerChar, lowerChar_bne_at]

end CharLemmas

section ListLemmas

theorem char_beq_comm (a b : Char) : (a == b) = (b == a) := by
  by_cases h : a = b
  · rw [h]
  · rw [beq_eq_false_iff_ne.mpr h, beq_eq_false_iff_ne.mpr (Ne.symm h)]

theorem hasConsecutiveDotsL_map_lower (l : List Char) :
    hasConsecutiveDotsL (l.map lowerChar) = hasConsecutiveDotsL l := by
  induction l with
  | nil => rfl
  | cons a t ih =>
    cases t with
    | nil => rfl
    | cons b r =>
      simp only [List.map_cons, hasConsecutiveDotsL]
      rw [show lowerChar b :: r.map lowerChar = (b :: r).map lowerChar from rfl, ih,
        lowerChar_beq (c := a) (by decide) (by decide),
        lowerChar_beq (c := b) (by decide) (by decide)]

theorem contains_dot_map_lower (l : List Char) :
    (l.map lowerChar).contains '.' = l.contains '.' := by
  induction l with
  | nil => rfl
  | cons a t ih =>
    simp only [List.map_cons, List.contains_cons, ih]
    rw [char_beq_comm '.' (lowerChar a), char_beq_comm '.' a,
      lowerChar_beq (by decide) (by decide)]

theorem all_isEmailChar_map_lower (l : List Char) :
    (l.map lowerChar).all isEmailChar = l.all isEmailChar := by
  rw [List.all_map]
  exact congrArg l.all (funext isEmailChar_lowerChar)

theorem dropWhile_head_not {α : Type} (p : α → Bool) :
    ∀ (l : List α) (c : α) (t : List α), l.dropWhile p = c :: t → p c = false
  | [], _, _, h => by simp [List.dropWhile] at h
  | a :: l, c, t, h => by
    rw [List.dropWhile_cons] at h
    split at h
    · exact dropWhile_head_not p l c t h
    · rename_i hpa
      cases h
      simpa using hpa

theorem regexTest_map_lower (l : List Char) :
    regexTest (l.map lowerChar) = regexTest l := by
  have hp : (fun c => c != '@') ∘ lowerChar = fun c => c != '@' :=
    funext lowerChar_bne_at
  unfold regexTest
  rw [List.dropWhile_map, List.takeWhile_map, hp]
  cases hd : l.dropWhile (fun c => c != '@') with
  | nil => rfl
  | cons c dom =>
    have hc : (c != '@') = false := dropWhile_head_not _ l c dom hd
    have hc2 : c = '@' := by simpa using hc
    subst hc2
    have hem : ∀ (m : List Char), (List.map lowerChar m).isEmpty = m.isEmpty := by
      intro m
      cases m <;> rfl
    simp only [List.map_cons, show lowerChar '@' = '@' from rfl]
    rw [all_isEmailChar_map_lower, all_isEmailChar_map_lower, ← List.map_drop,
      ← List.map_dropLast, contains_dot_map_lower, hem, hem]

theorem regexTest_decomp {l : List Char} (h : regexTest l = true) :
    ∃ lp dom, l = lp ++ '@' :: dom ∧ lp ≠ [] ∧ lp.all isEmailChar = true ∧
      dom ≠ [] ∧ dom.all isEmailChar = true ∧
      ((dom.drop 1).dropLast.contains '.') = true := by
  unfold regexTest at h
  split at h
  · rename_i dom hdrop
    simp only [Bool.and_eq_true, Bool.not_eq_true', List.isEmpty_eq_false] at h
    obtain ⟨⟨⟨⟨h1, h2⟩, h3⟩, h4⟩, h5⟩ := h
    refine ⟨l.takeWhile (fun c => c != '@'), dom, ?_, h1, h2, h3, h4, h5⟩
    conv_lhs => rw [← List.takeWhile_append_dropWhile (p := fun c => c != '@') (l := l)]
    rw [hdrop]
  · exact absurd h (by simp)

theorem mem_ne_at_of_all_isEmailChar {l : List Char} (h : l.all isEmailChar = true) :
    ∀ x ∈ l, x ≠ '@' := by
  intro x hx
  have h2 := List.all_eq_true.mp h x hx
  unfold isEmailChar at h2
  simp only [Bool.and_eq_true, bne_iff_ne, ne_eq] at h2
  exact h2.2

theorem not_ws_of_all_isEmailChar {l : List Char} (h : l.all isEmailChar = true) :
    l.all (fun c => !isJsWhitespace c) = true := by
  rw [List.all_eq_true] at h ⊢
  intro x hx
  have h2 := h x hx
  unfold isEmailChar at h2
  simp only [Bool.and_eq_true] at h2
  exact h2.1

theorem regexTest_nonWs {l : List Char} (h : regexTest l = true) :
    l.all (fun c => !isJsWhitespace c) = true := by
  obtain ⟨lp, dom, hl, -, hlp, -, hdom, -⟩ := regexTest_decomp h
  subst hl
  simp only [List.all_append, List.all_cons, Bool.and_eq_true]
  exact ⟨(not_ws_of_all_isEmailChar hlp), by decide, not_ws_of_all_isEmailChar hdom⟩

theorem dropWhile_of_all_false {α : Type} {p : α → Bool} :
    ∀ {l : List α}, l.all (fun c => !p c) = true → l.dropWhile p = l
  | [], _ => rfl
  | a :: t, h => by
    simp only [List.all_cons, Bool.and_eq_true, Bool.not_eq_true'] at h
    rw [List.dropWhile_cons_of_neg (by rw [h.1]; exact Bool.false_ne_true)]

theorem jsTrimL_of_no_ws {l : List Char}
    (h : l.all (fun c => !isJsWhitespace c) = true) : jsTrimL l = l := by
  unfold jsTrimL
  rw [dropWhile_of_all_false h, dropWhile_of_all_false (by rwa [List.all_reverse]),
    List.reverse_reverse]

theorem splitOnChar_no_sep {sep : Char} :
    ∀ {l : List Char}, (∀ x ∈ l, x ≠ sep) → splitOnChar sep l = [l]
  | [], _ => rfl
  | a :: t, h => by
    simp only [splitOnChar]
    rw [if_neg (h a (List.mem_cons_self a t)),
      splitOnChar_no_sep (fun x hx => h x (List.mem_cons_of_mem a hx))]

theorem splitOnChar_append {sep : Char} {D : List Char} :
    ∀ {L : List Char}, (∀ x ∈ L, x ≠ sep) →
      splitOnChar sep (L ++ sep :: D) = L :: splitOnChar sep D
  | [], _ => by simp [splitOnChar]
  | a :: t, h => by
    simp only [List.cons_append, splitOnChar, List.append_eq]
    rw [if_neg (h a (List.mem_cons_self a t)),
      splitOnChar_append (fun x hx => h x (List.mem_cons_of_mem a hx))]

end ListLemmas

section EmailLemmas

theorem Email.create_of_valid {s : String} (h : Email.isValid (jsTrim s) = true) :
    Email.create s = .ok ⟨jsToLower (jsTrim s)⟩ := by
  simp [Email.create, h]

theorem Email.create_of_invalid {s : String} (h : Email.isValid (jsTrim s) = false) :
    Email.create s = .error (.invalidFormat s) := by
  simp [Email.create, h]

theorem Email.create_ok_value {s : String} {e : Email} (h : Email.create s = .ok e) :
    e.value = jsToLower (jsTrim s) ∧ Email.isValid (jsTrim s) = true := by
  by_cases hv : Email.isValid (jsTrim s) = true
  · rw [Email.create_of_valid hv] at h
    cases h
    exact ⟨rfl, hv⟩
  · rw [Email.create_of_invalid (Bool.not_eq_true _ ▸ hv)] at h
    cases h

theorem jsToLower_data (s : String) : (jsToLower s).data = s.data.map lowerChar := rfl

theorem jsToLower_idem (s : String) : jsToLower (jsToLower s) = jsToLower s := by
  unfold jsToLower
  simp only [List.map_map]
  rw [show lowerChar ∘ lowerChar = lowerChar from funext lowerChar_idem]

theorem Email.isValid_toLower {s : String} (h : Email.isValid s = true) :
    Email.isValid (jsToLower s) = true := by
  unfold Email.isValid at h ⊢
  rw [jsToLower_data, List.length_map, hasConsecutiveDotsL_map_lower, regexTest_map_lower]
  exact h

theorem Email.isValid_regexTest {s : String} (h : Email.isValid s = true) :
    regexTest s.data = true := by
  unfold Email.isValid at h
  simp only [Bool.and_eq_true] at h
  exact h.2

theorem Email.isValid_nonWs {s : String} (h : Email.isValid s = true) :
    s.data.all (fun c => !isJsWhitespace c) = true :=
  regexTest_nonWs (Email.isValid_regexTest h)

theorem jsTrim_eq_self {s : String}
    (h : s.data.all (fun c => !isJsWhitespace c) = true) : jsTrim s = s := by
  unfold jsTrim
  rw [jsTrimL_of_no_ws h]

theorem nonWs_map_lower {l : List Char}
    (h : l.all (fun c => !isJsWhitespace c) = true) :
    (l.map lowerChar).all (fun c => !isJsWhitespace c) = true := by
  rw [List.all_map, show ((fun c => !isJsWhitespace c) ∘ lowerChar) =
    fun c => !isJsWhitespace c from funext fun c => by
      simp only [Function.comp_apply, isJsWhitespace_lowerChar]]
  exact h

theorem Email.create_ok_invariant {s : String} {e : Email} (h : Email.create s = .ok e) :
    Email.isValid e.value = true ∧ jsTrim e.value = e.value ∧
      jsToLower e.value = e.value := by
  obtain ⟨hval, hv⟩ := Email.create_ok_value h
  refine ⟨?_, ?_, ?_⟩
  · rw [hval]
    exact Email.isValid_toLower hv
  · rw [hval]
    exact jsTrim_eq_self (by
      rw [jsToLower_data]
      exact nonWs_map_lower (Email.isValid_nonWs hv))
  · rw [hval]
    exact jsToLower_idem _

/-- A structurally valid value decomposes as `localPart ++ '@' ++ domain`, and
`split('@')` recovers exactly that decomposition. -/
theorem Email.isValid_split {v : String} (h : Email.isValid v = true) :
    ∃ lp dom, v.data = lp ++ '@' :: dom ∧ lp ≠ [] ∧ dom ≠ [] ∧
      lp.all isEmailChar = true ∧ dom.all isEmailChar = true ∧
      splitOnChar '@' v.data = [lp, dom] := by
  obtain ⟨lp, dom, hv, hlp0, hlp, hdom0, hdom, -⟩ :=
    regexTest_decomp (Email.isValid_regexTest h)
  refine ⟨lp, dom, hv, hlp0, hdom0, hlp, hdom, ?_⟩
  rw [hv, splitOnChar_append (mem_ne_at_of_all_isEmailChar hlp),
    splitOnChar_no_sep (mem_ne_at_of_all_isEmailChar hdom)]

theorem Email.isValid_trim_self {s : String} (h : Email.isValid s = true) :
    jsTrim s = s :=
  jsTrim_eq_self (Email.isValid_nonWs h)

end EmailLemmas

example : Email.create "a@b.c" = .ok ⟨"a@b.c"⟩ := by decide
example : Email.create "  TEST@EXAMPLE.COM  " = .ok ⟨"test@example.com"⟩ := by decide
example : Email.create "invalid-email" = .error (.invalidFormat "invalid-email") := by decide
example : Email.create "john..doe@example.com" = .error (.invalidFormat "john..doe@example.com") := by decide
example : (⟨"a@b.c"⟩ : Email).getLocalPart = "a" := by decide
example : (⟨"a@b.c"⟩ : Email).getDomain = "b.c" := by decide

/-- Deterministic anti-spam test double that lets every value through. -/
def gateAlwaysFalse : String → Except String Bool := fun _ => .ok false

/-- Deterministic anti-spam test double that flags every value as blocked. -/
def gateAlwaysTrue : String → Except String Bool := fun _ => .ok true

/-- Anti-spam test double whose promise always rejects. -/
def gateAlwaysThrow : String → Except String Bool := fun _ => .error "network error"

/-- Name-builder test double that accepts every input. -/
def nameCreateOk : String → Except JsError UserName := fun s => .ok ⟨s⟩

/-- C1: for every string `s` with `isValid(trim(s))` false, building an Email
from `s` yields `Err(InvalidFormat)` as an ordinary result value; the
embedding's total return type `Except JsError Email` is the statement that no
exception escapes to the caller. -/
theorem email_build_invalid_returns_err (s : String)
    (h : Email.isValid (jsTrim s) = false) :
    Email.create s = .error (.invalidFormat s) :=
  Email.create_of_invalid h

theorem email_build_invalid_returns_err_witness :
    Email.isValid (jsTrim "invalid-email") = false ∧
      Email.create "invalid-email" = .error (.invalidFormat "invalid-email") :=
  ⟨by decide, email_build_invalid_returns_err "invalid-email" (by decide)⟩

/-- C2: for every string `s` with `isValid(trim(s))` true, building succeeds
and the stored value is `lower(trim(s))`; in particular
`"  TEST@EXAMPLE.COM  "` builds to the value `"test@example.com"`. -/
theorem email_build_valid_normalizes :
    (∀ s : String, Email.isValid (jsTrim s) = true →
      Email.create s = .ok ⟨jsToLower (jsTrim s)⟩) ∧
    Email.create "  TEST@EXAMPLE.COM  " = .ok ⟨"test@example.com"⟩ :=
  ⟨fun _ h => Email.create_of_valid h, by decide⟩

theorem email_build_valid_normalizes_witness :
    Email.create "A@B.C" = .ok ⟨jsToLower (jsTrim "A@B.C")⟩ :=
  email_build_valid_normalizes.1 "A@B.C" (by decide)

/-- C3: when the raw input passes the method's structural validation, a gate
resolving `true` yields `Err(blocked)` (the `PolicyRejected` kind) and a gate
whose promise rejects yields `Err(gateError msg)` (the `PolicyCheckFailed`
kind, distinct from `blocked`); the total `Except` return type expresses that
the caller always receives a construction result. -/
theorem antispam_policy_outcomes (gate : String → Except String Bool)
    (raw : String) (h : Email.isValid raw = true) :
    (gate raw = .ok true →
      Email.createWithAntiSpamCheck gate raw = .error (.blocked raw)) ∧
    (∀ msg, gate raw = .error msg →
      Email.createWithAntiSpamCheck gate raw = .error (.gateError msg)) := by
  refine ⟨fun hg => ?_, fun msg hg => ?_⟩ <;>
    simp [Email.createWithAntiSpamCheck, Email.createWithAntiSpamCheckRun, h, hg]

theorem antispam_policy_outcomes_witness :
    Email.createWithAntiSpamCheck gateAlwaysTrue "a@b.c" = .error (.blocked "a@b.c") ∧
      Email.createWithAntiSpamCheck gateAlwaysThrow "a@b.c" =
        .error (.gateError "network error") :=
  ⟨(antispam_policy_outcomes gateAlwaysTrue "a@b.c" (by decide)).1 rfl,
    (antispam_policy_outcomes gateAlwaysThrow "a@b.c" (by decide)).2 "network error" rfl⟩

/-- C4 counterexample: `"  TEST@EXAMPLE.COM  "` is accepted by the synchronous
build (which validates the trimmed input) but structurally rejected by
`createWithAntiSpamCheck` (which validates the raw, untrimmed input), refuting
the claim that the asynchronous variant performs the same structural
validation and accepts every synchronously accepted input. -/
theorem antispam_trim_mismatch_cex :
    Email.create "  TEST@EXAMPLE.COM  " = .ok ⟨"test@example.com"⟩ ∧
      Email.createWithAntiSpamCheck gateAlwaysFalse "  TEST@EXAMPLE.COM  " =
        .error (.invalidFormat "  TEST@EXAMPLE.COM  ") :=
  ⟨by decide, by decide⟩

/-- C4 amended: `createWithAntiSpamCheck` validates the raw (untrimmed) input
and invokes the policy gate with the raw value, not the normalized one;
consequently every input structurally accepted by the asynchronous variant is
also accepted by the synchronous build (the converse of the original claim),
the raw value then already being trimmed. -/
theorem antispam_validates_raw_input (gate : String → Except String Bool)
    (raw : String) :
    (Email.isValid raw = false →
      Email.createWithAntiSpamCheck gate raw = .error (.invalidFormat raw) ∧
        (Email.createWithAntiSpamCheckRun gate raw).2 = []) ∧
    (Email.isValid raw = true →
      (Email.createWithAntiSpamCheckRun gate raw).2 = [raw] ∧
        jsTrim raw = raw ∧
        Email.create raw = .ok ⟨jsToLower raw⟩) := by
  constructor
  · intro h
    constructor <;> simp [Email.createWithAntiSpamCheck, Email.createWithAntiSpamCheckRun, h]
  · intro h
    refine ⟨?_, Email.isValid_trim_self h, ?_⟩
    · unfold Email.createWithAntiSpamCheckRun
      cases hg : gate raw with
      | error msg => simp [h, hg]
      | ok b => cases b <;> simp [h, hg]
    · have h2 : Email.isValid (jsTrim raw) = true := by
        rw [Email.isValid_trim_self h]
        exact h
      rw [Email.create_of_valid h2, Email.isValid_trim_self h]

theorem antispam_validates_raw_input_witness :
    (Email.createWithAntiSpamCheck gateAlwaysFalse " a@b.c " =
        .error (.invalidFormat " a@b.c ") ∧
      (Email.createWithAntiSpamCheckRun gateAlwaysFalse " a@b.c ").2 = []) ∧
    (Email.createWithAntiSpamCheckRun gateAlwaysFalse "a@b.c").2 = ["a@b.c"] :=
  ⟨(antispam_validates_raw_input gateAlwaysFalse " a@b.c ").1 (by decide),
    ((antispam_validates_raw_input gateAlwaysFalse "a@b.c").2 (by decide)).1⟩

/-- C5: when structural validation fails, the anti-spam gate is never invoked:
the run's call trace is empty and the whole outcome is independent of the
injected gate. -/
theorem antispam_gate_not_called_on_invalid (gate : String → Except String Bool)
    (raw : String) (h : Email.isValid raw = false) :
    (Email.createWithAntiSpamCheckRun gate raw).2 = [] ∧
    ∀ gate2, Email.createWithAntiSpamCheckRun gate raw =
      Email.createWithAntiSpamCheckRun gate2 raw := by
  constructor
  · simp [Email.createWithAntiSpamCheckRun, h]
  · intro gate2
    simp [Email.createWithAntiSpamCheckRun, h]

theorem antispam_gate_not_called_on_invalid_witness :
    (Email.createWithAntiSpamCheckRun gateAlwaysTrue "not-an-email").2 = [] :=
  (antispam_gate_not_called_on_invalid gateAlwaysTrue "not-an-email" (by decide)).1

/-- C6: every Email produced by a public construction path holds a value that
is structurally valid (non-empty, ≤ 254 chars, no consecutive dots,
local@domain.tld shape — the conjuncts of `isValid`), already trimmed, and
already lower-cased; immutability is inherent to the pure embedding, in which
no operation writes to `value`. -/
theorem email_invariant_holds :
    (∀ s e, Email.create s = .ok e →
      Email.isValid e.value = true ∧ jsTrim e.value = e.value ∧
        jsToLower e.value = e.value) ∧
    (∀ gate s e, Email.createWithAntiSpamCheck gate s = .ok e →
      Email.isValid e.value = true ∧ jsTrim e.value = e.value ∧
        jsToLower e.value = e.value) := by
  constructor
  · intro s e h
    exact Email.create_ok_invariant h
  · intro gate s e h
    unfold Email.createWithAntiSpamCheck Email.createWithAntiSpamCheckRun at h
    cases hv : Email.isValid s with
    | false => simp [hv] at h
    | true =>
      simp only [hv, Bool.not_true, Bool.false_eq_true, if_false] at h
      cases hg : gate s with
      | error msg => rw [hg] at h; simp at h
      | ok b =>
        cases b with
        | true => rw [hg] at h; simp at h
        | false =>
          rw [hg] at h
          simp only at h
          exact Email.create_ok_invariant h

theorem email_invariant_holds_witness :
    Email.isValid (Email.mk "test@example.com").value = true ∧
      jsTrim (Email.mk "test@example.com").value = (Email.mk "test@example.com").value ∧
      jsToLower (Email.mk "test@example.com").value = (Email.mk "test@example.com").value :=
  email_invariant_holds.1 "  TEST@EXAMPLE.COM  " ⟨"test@example.com"⟩ (by decide)

/-- C7: for every successfully constructed Email,
`getLocalPart() + "@" + getDomain()` recovers the stored value exactly. -/
theorem email_localpart_domain_roundtrip (s : String) (e : Email)
    (h : Email.create s = .ok e) :
    e.getLocalPart ++ "@" ++ e.getDomain = e.value := by
  obtain ⟨lp, dom, hdata, -, -, -, -, hsplit⟩ :=
    Email.isValid_split (Email.create_ok_invariant h).1
  unfold Email.getLocalPart Email.getDomain
  rw [hsplit]
  have he : e.value = ⟨lp ++ '@' :: dom⟩ := congrArg String.mk hdata
  rw [he]
  show (⟨(lp ++ ['@']) ++ dom⟩ : String) = ⟨lp ++ '@' :: dom⟩
  rw [List.append_assoc]
  rfl

theorem email_localpart_domain_roundtrip_witness :
    (Email.mk "a@b.c").getLocalPart ++ "@" ++ (Email.mk "a@b.c").getDomain =
      (Email.mk "a@b.c").value :=
  email_localpart_domain_roundtrip "a@b.c" ⟨"a@b.c"⟩ (by decide)

/-- C8: `updateEmail` returns a new User whose email is the new scalar and
whose `updatedAt` is refreshed to the given instant, while `id`, `name` and
`createdAt` are carried over; in the pure embedding the original `u` is a
value and is untouched by construction. -/
theorem user_updateEmail_immutable_update (u : User) (e : Email) (now : Nat) :
    (u.updateEmail e now).email = e ∧ (u.updateEmail e now).updatedAt = now ∧
      (u.updateEmail e now).id = u.id ∧ (u.updateEmail e now).name = u.name ∧
      (u.updateEmail e now).createdAt = u.createdAt :=
  ⟨rfl, rfl, rfl, rfl, rfl⟩

/-- C9: in `createWithValidation` the email step strictly precedes the name
step: a structurally invalid email string fails with its invalid-format error
with an empty gate trace and the name builder not invoked; and the name
builder runs exactly when the email step (structural validation plus
anti-spam check) succeeded. -/
theorem user_creation_email_before_name (gate : String → Except String Bool)
    (nameCreate : String → Except JsError UserName) (es ns : String)
    (idOpt : Option UserId) (gid : UserId) (now : Nat) :
    (Email.isValid es = false →
      User.createWithValidationRun gate nameCreate es ns idOpt gid now =
        (.error (.invalidFormat es), [], false)) ∧
    ((User.createWithValidationRun gate nameCreate es ns idOpt gid now).2.2 = true ↔
      ∃ e, Email.createWithAntiSpamCheck gate es = .ok e) := by
  constructor
  · intro h
    unfold User.createWithValidationRun
    rw [show Email.createWithAntiSpamCheckRun gate es = (.error (.invalidFormat es), [])
      from by simp [Email.createWithAntiSpamCheckRun, h]]
  · unfold User.createWithValidationRun Email.createWithAntiSpamCheck
    rcases hrun : Email.createWithAntiSpamCheckRun gate es with ⟨r, trace⟩
    cases r with
    | error err => simp
    | ok email =>
      cases hn : nameCreate ns with
      | error e2 => simp [hn]
      | ok nm => simp [hn]

theorem user_creation_email_before_name_witness :
    User.createWithValidationRun gateAlwaysTrue nameCreateOk "not-an-email" "John Doe"
        none ⟨"id-1"⟩ 0 =
      (.error (.invalidFormat "not-an-email"), [], false) :=
  (user_creation_email_before_name gateAlwaysTrue nameCreateOk "not-an-email" "John Doe"
    none ⟨"id-1"⟩ 0).1 (by decide)

/-- C10: a successfully constructed Email's value contains exactly one `'@'`;
`split('@')` yields exactly two parts, both non-empty, both free of whitespace
and `'@'` (`isEmailChar`), the parts the accessors return — so the
undefined-index branch of `value.split('@')[1]` is unreachable. -/
theorem email_split_two_parts_safe (s : String) (e : Email)
    (h : Email.create s = .ok e) :
    (splitOnChar '@' e.value.data).length = 2 ∧
      (splitOnChar '@' e.value.data).get? 0 = some e.getLocalPart.data ∧
      (splitOnChar '@' e.value.data).get? 1 = some e.getDomain.data ∧
      e.getLocalPart.data ≠ [] ∧ e.getDomain.data ≠ [] ∧
      e.getLocalPart.data.all isEmailChar = true ∧
      e.getDomain.data.all isEmailChar = true ∧
      e.value.data.count '@' = 1 := by
  obtain ⟨lp, dom, hdata, hlp0, hdom0, hlp, hdom, hsplit⟩ :=
    Email.isValid_split (Email.create_ok_invariant h).1
  have h1 : e.getLocalPart = ⟨lp⟩ := by
    unfold Email.getLocalPart
    rw [hsplit]
    rfl
  have h2 : e.getDomain = ⟨dom⟩ := by
    unfold Email.getDomain
    rw [hsplit]
    rfl
  have hc1 : lp.count '@' = 0 :=
    List.count_eq_zero.mpr fun hmem => (mem_ne_at_of_all_isEmailChar hlp '@' hmem) rfl
  have hc2 : dom.count '@' = 0 :=
    List.count_eq_zero.mpr fun hmem => (mem_ne_at_of_all_isEmailChar hdom '@' hmem) rfl
  refine ⟨by rw [hsplit]; rfl, by rw [hsplit, h1]; rfl, by rw [hsplit, h2]; rfl,
    by rw [h1]; exact hlp0, by rw [h2]; exact hdom0,
    by rw [h1]; exact hlp, by rw [h2]; exact hdom, ?_⟩
  rw [hdata, List.count_append, hc1]
  simp [List.count_cons, hc2]

theorem email_split_two_parts_safe_witness :
    (splitOnChar '@' (Email.mk "a@b.c").value.data).length = 2 ∧
      (splitOnChar '@' (Email.mk "a@b.c").value.data).get? 0 =
        some (Email.mk "a@b.c").getLocalPart.data ∧
      (splitOnChar '@' (Email.mk "a@b.c").value.data).get? 1 =
        some (Email.mk "a@b.c").getDomain.data ∧
      (Email.mk "a@b.c").getLocalPart.data ≠ [] ∧
      (Email.mk "a@b.c").getDomain.data ≠ [] ∧
      (Email.mk "a@b.c").getLocalPart.data.all isEmailChar = true ∧
      (Email.mk "a@b.c").getDomain.data.all isEmailChar = true ∧
      (Email.mk "a@b.c").value.data.count '@' = 1 :=
  email_split_two_parts_safe "a@b.c" ⟨"a@b.c"⟩ (by decide)
